import Mathlib

/-!
# status-go: request registry (services/shhext/requests.go) and sync poller (geth/node/syncpoll.go)

A shallow embedding of the two components and the properties proved about them, with the
exit test of the other wait-for-sync loop of the repository (e2e/suites.go).

Conventions of the embedding

* A Go map is a partial function `K → Option V`; `m[k] = v` is `GoMap.set`,
  `delete(m, k)` is `GoMap.delete`, and `v, ok := m[k]` is application.
* Instants and durations are integers counting nanoseconds (`time.Duration` is a
  nanosecond count).  `time.Since(t)` read at clock value `now` is `now - t`; the
  saturation of `time.Time.Sub` at the bounds of `int64` (readings about 292 years apart)
  is outside the model.
* `Register` reads the clock twice (once inside `time.Since`, once for the new
  timestamp); the two readings are two arguments of the embedded function.
* The mutex makes every call one critical section, so a call is one state transition.
* One run of `Poll` is driven by the list of outcomes of its successive `select`
  statements; `none` means that the list ended while the loop was still waiting.
-/

namespace Shhext

/-! ## Bytes, hashes, topics -/

/-- One byte. -/
abbrev Byte := Fin 256

/-- Length of `common.Hash` in bytes. -/
def HashLength : Nat := 32

/-- The type `common.Hash`: an array of 32 bytes. -/
abbrev Hash := { l : List Byte // l.length = HashLength }

/-- The type `whisper.TopicType`: an array of 4 bytes. -/
abbrev TopicType := { l : List Byte // l.length = 4 }

/-- The zero value of `common.Hash`. -/
def zeroHash : Hash := ⟨List.replicate HashLength 0, by simp⟩

/-- Body of `Hash.SetBytes`: a longer input is cropped from the left, a shorter one is
copied to the right end of the zeroed array. -/
def setBytes (b : List Byte) : List Byte :=
  let b := if b.length > HashLength then b.drop (b.length - HashLength) else b
  List.replicate (HashLength - b.length) 0 ++ b

/-- The function `common.BytesToHash`. -/
def BytesToHash (b : List Byte) : Hash :=
  ⟨setBytes b, by
    unfold setBytes
    by_cases h : b.length > HashLength
    · simp only [h, if_true, List.length_append, List.length_replicate, List.length_drop]
      omega
    · simp only [h, if_false, List.length_append, List.length_replicate]
      omega⟩

/-! ## hash/fnv, 32-bit FNV-1 (`fnv.New32`) -/

/-- Initial value of the 32-bit FNV accumulator. -/
def offset32 : Nat := 2166136261

/-- The 32-bit FNV prime. -/
def prime32 : Nat := 16777619

/-- The method `sum32.Write`: for every byte, multiply (in `uint32`) by the prime, then xor
the byte in. -/
def fnvWrite (hash : Nat) (data : List Byte) : Nat :=
  data.foldl (fun h c => ((h * prime32) % 2 ^ 32) ^^^ c.val) hash

/-- Conversion `byte(v)` of an unsigned integer. -/
def toByte (v : Nat) : Byte := ⟨v % 256, Nat.mod_lt _ (by decide)⟩

/-- The method `sum32.Sum`: append the four bytes of the accumulator, most significant
first. -/
def fnvSum (v : Nat) (input : List Byte) : List Byte :=
  input ++ [toByte (v >>> 24), toByte (v >>> 16), toByte (v >>> 8), toByte v]

/-- The function `topicsToHash`: non-cryptographic hash of the topics. -/
def topicsToHash (topics : List TopicType) : Hash :=
  let hash := topics.foldl (fun h t => fnvWrite h t.val) offset32
  let rst : List Byte := []
  let rst := fnvSum hash rst
  BytesToHash rst

/-! ## Go maps -/

/-- A Go map as a partial function. -/
abbrev GoMap (K V : Type) := K → Option V

/-- The empty map literal. -/
def GoMap.empty {K V : Type} : GoMap K V := fun _ => none

/-- Assignment `m[k] = v`. -/
def GoMap.set {K V : Type} [DecidableEq K] (m : GoMap K V) (k : K) (v : V) : GoMap K V :=
  fun x => if x = k then some v else m x

/-- Statement `delete(m, k)`. -/
def GoMap.delete {K V : Type} [DecidableEq K] (m : GoMap K V) (k : K) : GoMap K V :=
  fun x => if x = k then none else m x

/-! ## The registry -/

/-- One second, in nanoseconds (`time.Second`). -/
def Second : Int := 1000000000

/-- The constant `defaultRequestsDelay`. -/
def defaultRequestsDelay : Int := 3 * Second

/-- The struct `requestMeta`. -/
structure requestMeta where
  timestamp : Int
  lastUID : Hash
deriving DecidableEq

/-- The zero value of `requestMeta`, which indexing a map with a missing key yields. -/
def zeroMeta : requestMeta := ⟨0, zeroHash⟩

/-- The struct `RequestsRegistry` (the mutex has no content). -/
structure RequestsRegistry where
  delay : Int
  uidToTopics : GoMap Hash Hash
  byTopicsHash : GoMap Hash requestMeta

/-- The error built by `fmt.Errorf` in `Register`; the only datum formatted into it is the
configured delay. -/
structure DuplicateRequestError where
  delay : Int
deriving DecidableEq

/-- The function `NewRequestsRegistry`. -/
def NewRequestsRegistry (delay : Int) : RequestsRegistry :=
  { delay := delay, uidToTopics := GoMap.empty, byTopicsHash := GoMap.empty }

/-- The method `Register`.  `sinceNow` is the clock as read by `time.Since`, `stampNow`
the clock as read by the later `time.Now()`.  The result is the registry after the call
and the returned error (`none` for `nil`). -/
def RequestsRegistry.Register (r : RequestsRegistry) (uid : Hash) (topics : List TopicType)
    (sinceNow stampNow : Int) : RequestsRegistry × Option DuplicateRequestError :=
  let topicsHash := topicsToHash topics
  let tooEarly : Bool :=
    match r.byTopicsHash topicsHash with
    | some entry => decide (sinceNow - entry.timestamp < r.delay)
    | none => false
  if tooEarly then
    (r, some ⟨r.delay⟩)
  else
    let newMeta : requestMeta := { timestamp := stampNow, lastUID := uid }
    ({ r with
        uidToTopics := r.uidToTopics.set uid topicsHash
        byTopicsHash := r.byTopicsHash.set topicsHash newMeta }, none)

/-- The method `Unregister`. -/
def RequestsRegistry.Unregister (r : RequestsRegistry) (uid : Hash) : RequestsRegistry :=
  match r.uidToTopics uid with
  | none => r
  | some topicsHash =>
    let uidToTopics := r.uidToTopics.delete uid
    let entry := (r.byTopicsHash topicsHash).getD zeroMeta
    if entry.lastUID = uid then
      { r with uidToTopics := uidToTopics, byTopicsHash := r.byTopicsHash.delete topicsHash }
    else
      { r with uidToTopics := uidToTopics }

/-! ## Sequences of calls -/

/-- One call on the registry, with the clock readings a `Register` call sees. -/
inductive Call where
  | register (uid : Hash) (topics : List TopicType) (sinceNow stampNow : Int)
  | unregister (uid : Hash)

/-- State after one call (a returned error is dropped). -/
def RequestsRegistry.apply (r : RequestsRegistry) : Call → RequestsRegistry
  | .register uid topics sinceNow stampNow => (r.Register uid topics sinceNow stampNow).1
  | .unregister uid => r.Unregister uid

/-- State after a sequence of calls. -/
def RequestsRegistry.run (r : RequestsRegistry) : List Call → RequestsRegistry
  | [] => r
  | c :: cs => (r.apply c).run cs

/-- Whether every `Register` call of the sequence uses a request id that is not in
`uidToTopics` at the time of the call. -/
def RequestsRegistry.freshIds (r : RequestsRegistry) : List Call → Bool
  | [] => true
  | .register uid topics sinceNow stampNow :: cs =>
    (r.uidToTopics uid).isNone &&
      (r.apply (.register uid topics sinceNow stampNow)).freshIds cs
  | .unregister uid :: cs => (r.apply (.unregister uid)).freshIds cs

/-- Ownership: the `lastUID` of every entry of `byTopicsHash` is a key of `uidToTopics`
mapped to the fingerprint the entry is stored under. -/
def RequestsRegistry.Owned (r : RequestsRegistry) : Prop :=
  ∀ f entry, r.byTopicsHash f = some entry → r.uidToTopics entry.lastUID = some f

/-! ## Concrete data -/

/-- The hash literal `common.Hash{b}`: first byte `b`, the rest zero. -/
def hashOf (b : Byte) : Hash := ⟨b :: List.replicate 31 0, by simp [HashLength]⟩

/-- The topic `00 00 00 00`. -/
def topicA : TopicType := ⟨[0, 0, 0, 0], rfl⟩

/-- The topic `2c 7d c6 17`. -/
def topicB : TopicType := ⟨[44, 125, 198, 23], rfl⟩

/-- The topic `00 00 00 01`. -/
def topicC : TopicType := ⟨[0, 0, 0, 1], rfl⟩

end Shhext

namespace Node

/-! ## The sync poller -/

/-- The error values `ErrNodeSyncFailedToStart` and `ErrNodeSyncTakesTooLong`. -/
inductive SyncError where
  | ErrNodeSyncFailedToStart
  | ErrNodeSyncTakesTooLong
deriving DecidableEq

/-- The fields of the downloader's progress report that the poller reads (both `uint64`;
they are only compared). -/
structure SyncProgress where
  CurrentBlock : Nat
  HighestBlock : Nat
deriving DecidableEq

/-- What the downloader answers at one instant: the result of `Synchronising()` and of
`Progress()`. -/
structure Downloader where
  Synchronising : Bool
  Progress : SyncProgress
deriving DecidableEq

/-- Outcome of one `select` statement: `done` is the case `<-ctx.Done()`, `after d` the case
`<-time.After(delayCycleForSyncStart)` taken while the downloader answers `d`. -/
inductive Select where
  | done
  | after (d : Downloader)
deriving DecidableEq

/-- The method `pollSyncStart`, run on the outcomes of its successive `select`s.  The result
is `none` when the outcomes end before the loop returns, else the returned error (`none`
for `nil`) and the outcomes not yet consumed. -/
def pollSyncStart : List Select → Option (Option SyncError × List Select)
  | [] => none
  | .done :: rest => some (some .ErrNodeSyncFailedToStart, rest)
  | .after d :: rest =>
    if d.Synchronising then some (none, rest) else pollSyncStart rest

/-- The method `pollSyncCompleted`, in the same form. -/
def pollSyncCompleted : List Select → Option (Option SyncError × List Select)
  | [] => none
  | .done :: rest => some (some .ErrNodeSyncTakesTooLong, rest)
  | .after d :: rest =>
    let progress := d.Progress
    if progress.CurrentBlock ≥ progress.HighestBlock then some (none, rest)
    else pollSyncCompleted rest

/-- The method `Poll`: `none` while it has not returned, else the returned error (`none`
for `nil`). -/
def Poll (outcomes : List Select) : Option (Option SyncError) :=
  match pollSyncStart outcomes with
  | none => none
  | some (some err, _) => some (some err)
  | some (none, rest) =>
    match pollSyncCompleted rest with
    | none => none
    | some (some err, _) => some (some err)
    | some (none, _) => some none

/-- A timer tick at which the downloader does not report synchronising. -/
def notStarted : Select → Bool
  | .done => false
  | .after d => !d.Synchronising

/-- A timer tick at which the progress has `CurrentBlock < HighestBlock`. -/
def behind : Select → Bool
  | .done => false
  | .after d => decide (d.Progress.CurrentBlock < d.Progress.HighestBlock)

end Node

namespace E2e

/-! ## The wait for synchronisation of the test suite (e2e/suites.go) -/

/-- The test on which the waiting loop of `BackendTestSuite.EnsureSynchronization` breaks,
on one reading of the downloader. -/
def EnsureSynchronization.synced (d : Node.Downloader) : Bool :=
  let isSyncing := d.Synchronising
  let progress := d.Progress
  !isSyncing && decide (progress.HighestBlock > 0) &&
    decide (progress.CurrentBlock ≥ progress.HighestBlock)

end E2e

namespace Shhext

/-! ## Checks of the hash model -/

/-- The model of `fnv.New32` yields the reference FNV-1 sums of the empty input, of `a`, of
`ab` and of `abc`. -/
theorem fnv_reference_sums :
    fnvSum (fnvWrite offset32 []) [] = [0x81, 0x1c, 0x9d, 0xc5] ∧
    fnvSum (fnvWrite offset32 [97]) [] = [0x05, 0x0c, 0x5d, 0x7e] ∧
    fnvSum (fnvWrite offset32 [97, 98]) [] = [0x70, 0x77, 0x2d, 0x38] ∧
    fnvSum (fnvWrite offset32 [97, 98, 99]) [] = [0x43, 0x9c, 0x2f, 0x4b] := by
  refine ⟨by decide, by decide, by decide, by decide⟩

/-- The fingerprint is the four bytes of the FNV-1 sum behind 28 zero bytes. -/
theorem topicsToHash_bytes (topics : List TopicType) :
    (topicsToHash topics).val =
      List.replicate 28 0 ++
        fnvSum (topics.foldl (fun h t => fnvWrite h t.val) offset32) [] := by
  simp [topicsToHash, BytesToHash, setBytes, fnvSum, HashLength]

/-! ## Helper lemmas on `Register` and `Unregister` -/

theorem Register_blocked (r : RequestsRegistry) (uid : Hash) (topics : List TopicType)
    (sinceNow stampNow : Int) (entry : requestMeta)
    (h : r.byTopicsHash (topicsToHash topics) = some entry)
    (hlt : sinceNow - entry.timestamp < r.delay) :
    r.Register uid topics sinceNow stampNow = (r, some ⟨r.delay⟩) := by
  simp [RequestsRegistry.Register, h, hlt]

theorem Register_expired (r : RequestsRegistry) (uid : Hash) (topics : List TopicType)
    (sinceNow stampNow : Int) (entry : requestMeta)
    (h : r.byTopicsHash (topicsToHash topics) = some entry)
    (hge : r.delay ≤ sinceNow - entry.timestamp) :
    r.Register uid topics sinceNow stampNow =
      ({ r with
          uidToTopics := r.uidToTopics.set uid (topicsToHash topics)
          byTopicsHash := r.byTopicsHash.set (topicsToHash topics) ⟨stampNow, uid⟩ }, none) := by
  have hnot : ¬ sinceNow - entry.timestamp < r.delay := not_lt.mpr hge
  simp [RequestsRegistry.Register, h, hnot]

theorem Register_absent (r : RequestsRegistry) (uid : Hash) (topics : List TopicType)
    (sinceNow stampNow : Int)
    (h : r.byTopicsHash (topicsToHash topics) = none) :
    r.Register uid topics sinceNow stampNow =
      ({ r with
          uidToTopics := r.uidToTopics.set uid (topicsToHash topics)
          byTopicsHash := r.byTopicsHash.set (topicsToHash topics) ⟨stampNow, uid⟩ }, none) := by
  simp [RequestsRegistry.Register, h]

/-- The three possible behaviours of one `Register` call. -/
theorem Register_cases (r : RequestsRegistry) (uid : Hash) (topics : List TopicType)
    (sinceNow stampNow : Int) :
    ((∃ entry, r.byTopicsHash (topicsToHash topics) = some entry ∧
          sinceNow - entry.timestamp < r.delay) ∧
        r.Register uid topics sinceNow stampNow = (r, some ⟨r.delay⟩)) ∨
    ((¬ ∃ entry, r.byTopicsHash (topicsToHash topics) = some entry ∧
          sinceNow - entry.timestamp < r.delay) ∧
        r.Register uid topics sinceNow stampNow =
          ({ r with
              uidToTopics := r.uidToTopics.set uid (topicsToHash topics)
              byTopicsHash := r.byTopicsHash.set (topicsToHash topics) ⟨stampNow, uid⟩ },
            none)) := by
  cases h : r.byTopicsHash (topicsToHash topics) with
  | none =>
    right
    exact ⟨by simp, Register_absent r uid topics sinceNow stampNow h⟩
  | some entry =>
    by_cases hlt : sinceNow - entry.timestamp < r.delay
    · left
      exact ⟨⟨entry, rfl, hlt⟩, Register_blocked r uid topics sinceNow stampNow entry h hlt⟩
    · right
      refine ⟨?_, Register_expired r uid topics sinceNow stampNow entry h (not_lt.mp hlt)⟩
      rintro ⟨e, he, hlt2⟩
      cases he
      exact hlt hlt2

/-- A successful `Register` leaves exactly the written state. -/
theorem Register_ok_state (r : RequestsRegistry) (uid : Hash) (topics : List TopicType)
    (sinceNow stampNow : Int) (hok : (r.Register uid topics sinceNow stampNow).2 = none) :
    (r.Register uid topics sinceNow stampNow).1 =
      { r with
          uidToTopics := r.uidToTopics.set uid (topicsToHash topics)
          byTopicsHash := r.byTopicsHash.set (topicsToHash topics) ⟨stampNow, uid⟩ } := by
  rcases Register_cases r uid topics sinceNow stampNow with ⟨_, h⟩ | ⟨_, h⟩
  · rw [h] at hok
    simp at hok
  · rw [h]

theorem GoMap.set_same {K V : Type} [DecidableEq K] (m : GoMap K V) (k : K) (v : V) :
    m.set k v k = some v := by
  simp [GoMap.set]

theorem GoMap.set_other {K V : Type} [DecidableEq K] (m : GoMap K V) (k x : K) (v : V)
    (h : x ≠ k) : m.set k v x = m x := by
  simp [GoMap.set, h]

theorem Unregister_absent (r : RequestsRegistry) (uid : Hash) (h : r.uidToTopics uid = none) :
    r.Unregister uid = r := by
  simp [RequestsRegistry.Unregister, h]

theorem Unregister_uid_gone (r : RequestsRegistry) (uid : Hash) :
    (r.Unregister uid).uidToTopics uid = none := by
  unfold RequestsRegistry.Unregister
  cases h : r.uidToTopics uid with
  | none => simpa using h
  | some th =>
    simp only
    split <;> simp [GoMap.delete]

/-- After a successful `Register` stamped `t0`, the next `Register` with the same topics at
clock `t1` fails when `t1 - t0 < delay` and succeeds when `delay ≤ t1 - t0`. -/
theorem Register_after_Register (r : RequestsRegistry) (id1 id2 : Hash)
    (topics : List TopicType) (c0 t0 t1 s1 : Int)
    (hok : (r.Register id1 topics c0 t0).2 = none) :
    (t1 - t0 < r.delay →
      ((r.Register id1 topics c0 t0).1.Register id2 topics t1 s1).2 = some ⟨r.delay⟩) ∧
    (r.delay ≤ t1 - t0 →
      ((r.Register id1 topics c0 t0).1.Register id2 topics t1 s1).2 = none) := by
  rw [Register_ok_state r id1 topics c0 t0 hok]
  constructor
  · intro hlt
    rw [Register_blocked ⟨r.delay, _, r.byTopicsHash.set (topicsToHash topics) ⟨t0, id1⟩⟩
      id2 topics t1 s1 ⟨t0, id1⟩ (GoMap.set_same _ _ _) hlt]
  · intro hge
    rw [Register_expired ⟨r.delay, _, r.byTopicsHash.set (topicsToHash topics) ⟨t0, id1⟩⟩
      id2 topics t1 s1 ⟨t0, id1⟩ (GoMap.set_same _ _ _) hge]

/-! ## Theorems on the registry -/

/-- C1: `Register` fails, with the duplicate-request error carrying the configured delay, if
and only if `byTopicsHash` holds an entry for the topics' fingerprint whose timestamp is less
than the delay before the clock reading; in particular, after a successful
`Register(id1, T)` stamped `t0`, a `Register(id2, T)` at clock `t1` fails when
`t1 - t0 < delay` and succeeds when `t1 - t0 ≥ delay`. -/
theorem Register_fails_iff_cooldown (r : RequestsRegistry) (uid id1 id2 : Hash)
    (topics : List TopicType) (sinceNow stampNow c0 t0 t1 s1 : Int) :
    ((r.Register uid topics sinceNow stampNow).2 ≠ none ↔
        ∃ entry, r.byTopicsHash (topicsToHash topics) = some entry ∧
          sinceNow - entry.timestamp < r.delay) ∧
    ((r.Register uid topics sinceNow stampNow).2 ≠ none →
        (r.Register uid topics sinceNow stampNow).2 = some ⟨r.delay⟩) ∧
    ((r.Register id1 topics c0 t0).2 = none →
        (t1 - t0 < r.delay →
          ((r.Register id1 topics c0 t0).1.Register id2 topics t1 s1).2 = some ⟨r.delay⟩) ∧
        (r.delay ≤ t1 - t0 →
          ((r.Register id1 topics c0 t0).1.Register id2 topics t1 s1).2 = none)) := by
  refine ⟨?_, ?_, ?_⟩
  · rcases Register_cases r uid topics sinceNow stampNow with ⟨hb, h⟩ | ⟨hb, h⟩
    · rw [h]
      simpa using hb
    · rw [h]
      simpa using hb
  · rcases Register_cases r uid topics sinceNow stampNow with ⟨_, h⟩ | ⟨_, h⟩
    · rw [h]
      simp
    · rw [h]
      simp
  · intro hok
    exact Register_after_Register r id1 id2 topics c0 t0 t1 s1 hok

/-- C2: whenever `Register` fails, the registry is exactly as before the call. -/
theorem Register_failure_keeps_state (r : RequestsRegistry) (uid : Hash)
    (topics : List TopicType) (sinceNow stampNow : Int)
    (hfail : (r.Register uid topics sinceNow stampNow).2 ≠ none) :
    (r.Register uid topics sinceNow stampNow).1 = r ∧
    (r.Register uid topics sinceNow stampNow).1.uidToTopics = r.uidToTopics ∧
    (r.Register uid topics sinceNow stampNow).1.byTopicsHash = r.byTopicsHash := by
  rcases Register_cases r uid topics sinceNow stampNow with ⟨_, h⟩ | ⟨_, h⟩
  · rw [h]
    exact ⟨rfl, rfl, rfl⟩
  · rw [h] at hfail
    simp at hfail

/-- C3: if `Register(id1, T)` succeeds and is followed by `Unregister(id1)`, the entry
for the fingerprint of `T` is gone and a later `Register(id2, T)` succeeds at every clock
reading, also less than the delay after the first registration. -/
theorem Unregister_clears_cooldown (r : RequestsRegistry) (id1 id2 : Hash)
    (topics : List TopicType) (c0 t0 c1 t1 : Int)
    (hok : (r.Register id1 topics c0 t0).2 = none) :
    ((r.Register id1 topics c0 t0).1.Unregister id1).byTopicsHash (topicsToHash topics) = none ∧
    (((r.Register id1 topics c0 t0).1.Unregister id1).Register id2 topics c1 t1).2 = none := by
  have hgone : ((r.Register id1 topics c0 t0).1.Unregister id1).byTopicsHash
      (topicsToHash topics) = none := by
    rw [Register_ok_state r id1 topics c0 t0 hok]
    simp [RequestsRegistry.Unregister, GoMap.set, GoMap.delete]
  refine ⟨hgone, ?_⟩
  rw [Register_absent _ id2 topics c1 t1 hgone]

/-- C4: for distinct ids, after `Register(id1, T)` succeeds with stamp `t0` and
`Register(id2, T)` is called at least the delay later (so it succeeds, with stamp `t1`),
`Unregister(id1)` leaves `byTopicsHash` as it was: the entry for the fingerprint of `T`
still has `lastUID = id2` and timestamp `t1`, and a further `Register` with topics `T` less
than the delay after `t1` fails. -/
theorem Unregister_superseded_keeps_entry (r r1 r2 r3 : RequestsRegistry) (id1 id2 id3 : Hash)
    (topics : List TopicType) (c0 t0 c1 t1 c2 t2 : Int)
    (hne : id1 ≠ id2)
    (hok : (r.Register id1 topics c0 t0).2 = none)
    (hr1 : r1 = (r.Register id1 topics c0 t0).1)
    (hwait : t0 + r.delay ≤ c1)
    (hr2 : r2 = (r1.Register id2 topics c1 t1).1)
    (hr3 : r3 = r2.Unregister id1) :
    (r1.Register id2 topics c1 t1).2 = none ∧
    r3.byTopicsHash = r2.byTopicsHash ∧
    r3.byTopicsHash (topicsToHash topics) = some ⟨t1, id2⟩ ∧
    (c2 - t1 < r.delay → (r3.Register id3 topics c2 t2).2 = some ⟨r.delay⟩) := by
  rw [Register_ok_state r id1 topics c0 t0 hok] at hr1
  have hentry1 : r1.byTopicsHash (topicsToHash topics) = some ⟨t0, id1⟩ := by
    rw [hr1]
    exact GoMap.set_same _ _ _
  have hdelay1 : r1.delay = r.delay := by rw [hr1]
  have hge : r1.delay ≤ c1 - (⟨t0, id1⟩ : requestMeta).timestamp := by
    rw [hdelay1]
    show r.delay ≤ c1 - t0
    omega
  have hreg2 := Register_expired r1 id2 topics c1 t1 ⟨t0, id1⟩ hentry1 hge
  rw [hreg2] at hr2
  have huid1 : r2.uidToTopics id1 = some (topicsToHash topics) := by
    rw [hr2, hr1]
    simp [GoMap.set, hne]
  have hentry2 : r2.byTopicsHash (topicsToHash topics) = some ⟨t1, id2⟩ := by
    rw [hr2]
    exact GoMap.set_same _ _ _
  have hdelay2 : r2.delay = r.delay := by rw [hr2, hdelay1]
  have hne2 : ¬ id2 = id1 := fun h => hne h.symm
  have hkeep : r3.byTopicsHash = r2.byTopicsHash := by
    rw [hr3]
    simp [RequestsRegistry.Unregister, huid1, hentry2, hne2]
  have hdelay3 : r3.delay = r.delay := by
    rw [hr3, ← hdelay2]
    simp [RequestsRegistry.Unregister, huid1, hentry2, hne2]
  refine ⟨by rw [hreg2], hkeep, by rw [hkeep, hentry2], ?_⟩
  intro hlt
  have hentry3 : r3.byTopicsHash (topicsToHash topics) = some ⟨t1, id2⟩ := by
    rw [hkeep, hentry2]
  rw [Register_blocked r3 id3 topics c2 t2 ⟨t1, id2⟩ hentry3 (by rw [hdelay3]; exact hlt),
    hdelay3]

/-- C5: `Unregister` of a request id that is not in `uidToTopics` leaves the registry
exactly unchanged, and `Unregister` is idempotent: applied twice with the same id it yields
the same state as applied once. -/
theorem Unregister_unknown_noop_and_idempotent (r : RequestsRegistry) (uid : Hash) :
    (r.uidToTopics uid = none → r.Unregister uid = r) ∧
    (r.Unregister uid).Unregister uid = r.Unregister uid :=
  ⟨Unregister_absent r uid, Unregister_absent _ uid (Unregister_uid_gone r uid)⟩

/-- Witness of C1: on the default-delay registry holding one request stamped `0`, a call at
clock `1` fails, a call at clock `3 s` succeeds with stamp `3 s`, and after it a call one
nanosecond later fails while a call `3 s` later succeeds. -/
theorem Register_fails_iff_cooldown_witness :
    (((NewRequestsRegistry defaultRequestsDelay).Register (hashOf 1) [topicA] 0 0).1.Register
        (hashOf 2) [topicA] 1 1).2 = some ⟨defaultRequestsDelay⟩ ∧
    ((((NewRequestsRegistry defaultRequestsDelay).Register (hashOf 1) [topicA] 0 0).1.Register
        (hashOf 3) [topicA] 3000000000 3000000000).1.Register
        (hashOf 4) [topicA] 3000000001 3000000001).2 = some ⟨defaultRequestsDelay⟩ ∧
    ((((NewRequestsRegistry defaultRequestsDelay).Register (hashOf 1) [topicA] 0 0).1.Register
        (hashOf 3) [topicA] 3000000000 3000000000).1.Register
        (hashOf 4) [topicA] 6000000000 6000000000).2 = none :=
  ⟨(Register_fails_iff_cooldown
      ((NewRequestsRegistry defaultRequestsDelay).Register (hashOf 1) [topicA] 0 0).1
      (hashOf 2) (hashOf 3) (hashOf 4) [topicA] 1 1 3000000000 3000000000 3000000001
      3000000001).2.1 (by decide),
   ((Register_fails_iff_cooldown
      ((NewRequestsRegistry defaultRequestsDelay).Register (hashOf 1) [topicA] 0 0).1
      (hashOf 2) (hashOf 3) (hashOf 4) [topicA] 1 1 3000000000 3000000000 3000000001
      3000000001).2.2 (by decide)).1 (by decide),
   ((Register_fails_iff_cooldown
      ((NewRequestsRegistry defaultRequestsDelay).Register (hashOf 1) [topicA] 0 0).1
      (hashOf 2) (hashOf 3) (hashOf 4) [topicA] 1 1 3000000000 3000000000 6000000000
      6000000000).2.2 (by decide)).2 (by decide)⟩

/-- Witness of C2: a `Register` one nanosecond after a registration of the same topics
fails and returns the registry it was called on. -/
theorem Register_failure_keeps_state_witness :
    (((NewRequestsRegistry defaultRequestsDelay).Register (hashOf 1) [topicA] 0 0).1.Register
        (hashOf 2) [topicA] 1 1).2 ≠ none ∧
    (((NewRequestsRegistry defaultRequestsDelay).Register (hashOf 1) [topicA] 0 0).1.Register
        (hashOf 2) [topicA] 1 1).1 =
      ((NewRequestsRegistry defaultRequestsDelay).Register (hashOf 1) [topicA] 0 0).1 :=
  ⟨by decide,
   (Register_failure_keeps_state
      ((NewRequestsRegistry defaultRequestsDelay).Register (hashOf 1) [topicA] 0 0).1
      (hashOf 2) [topicA] 1 1 (by decide)).1⟩

/-- Witness of C3: register, unregister, and register again one nanosecond after the first
registration. -/
theorem Unregister_clears_cooldown_witness :
    ((NewRequestsRegistry defaultRequestsDelay).Register (hashOf 1) [topicA] 0 0).2 = none ∧
    ((((NewRequestsRegistry defaultRequestsDelay).Register (hashOf 1) [topicA] 0 0).1.Unregister
        (hashOf 1)).Register (hashOf 2) [topicA] 1 1).2 = none :=
  ⟨by decide,
   (Unregister_clears_cooldown (NewRequestsRegistry defaultRequestsDelay) (hashOf 1) (hashOf 2)
      [topicA] 0 0 1 1 (by decide)).2⟩

/-- Witness of C4: two registrations of the same topics `3 s` apart, the first owner is
unregistered, and a third registration one nanosecond after the second fails. -/
theorem Unregister_superseded_keeps_entry_witness :
    hashOf 1 ≠ hashOf 2 ∧
    (((((NewRequestsRegistry defaultRequestsDelay).Register (hashOf 1) [topicA] 0 0).1.Register
        (hashOf 2) [topicA] 3000000000 3000000000).1.Unregister (hashOf 1)).byTopicsHash
        (topicsToHash [topicA]) = some ⟨3000000000, hashOf 2⟩) ∧
    (((((NewRequestsRegistry defaultRequestsDelay).Register (hashOf 1) [topicA] 0 0).1.Register
        (hashOf 2) [topicA] 3000000000 3000000000).1.Unregister (hashOf 1)).Register
        (hashOf 3) [topicA] 3000000001 3000000001).2 = some ⟨defaultRequestsDelay⟩ :=
  ⟨by decide,
   (Unregister_superseded_keeps_entry (NewRequestsRegistry defaultRequestsDelay) _ _ _
      (hashOf 1) (hashOf 2) (hashOf 3) [topicA] 0 0 3000000000 3000000000 3000000001
      3000000001 (by decide) (by decide) rfl (by decide) rfl rfl).2.2.1,
   (Unregister_superseded_keeps_entry (NewRequestsRegistry defaultRequestsDelay) _ _ _
      (hashOf 1) (hashOf 2) (hashOf 3) [topicA] 0 0 3000000000 3000000000 3000000001
      3000000001 (by decide) (by decide) rfl (by decide) rfl rfl).2.2.2 (by decide)⟩

/-- Witness of C5: unregistering an id from the empty registry changes nothing. -/
theorem Unregister_unknown_noop_and_idempotent_witness :
    (NewRequestsRegistry defaultRequestsDelay).uidToTopics (hashOf 1) = none ∧
    (NewRequestsRegistry defaultRequestsDelay).Unregister (hashOf 1) =
      NewRequestsRegistry defaultRequestsDelay :=
  ⟨rfl,
   (Unregister_unknown_noop_and_idempotent (NewRequestsRegistry defaultRequestsDelay)
      (hashOf 1)).1 rfl⟩

/-- C8, counterexample: the distinct topics `00 00 00 00` and `2c 7d c6 17` have the same
fingerprint in both orders (FNV-1 sum `e6 a1 b1 89`), and on an empty registry with a
one-second delay the second of the two registrations, one nanosecond after the first,
fails. -/
theorem topicsToHash_swap_collision :
    topicA ≠ topicB ∧
    topicsToHash [topicA, topicB] = topicsToHash [topicB, topicA] ∧
    ((NewRequestsRegistry Second).Register (hashOf 1) [topicA, topicB] 0 0).2 = none ∧
    (((NewRequestsRegistry Second).Register (hashOf 1) [topicA, topicB] 0 0).1.Register
        (hashOf 2) [topicB, topicA] 1 1).2 = some ⟨Second⟩ := by
  refine ⟨by decide, by decide, by decide, by decide⟩

/-- C8, amended: on an empty registry, `Register(id1, [A,B])` succeeds, and a
`Register(id2, [B,A])` less than the delay later succeeds exactly when the fingerprints of
`[A,B]` and `[B,A]` differ; they differ for some pairs of distinct topics (the hash depends
on the order) though not for all. -/
theorem Register_swapped_topics (A B : TopicType) (id1 id2 : Hash)
    (delay c0 t0 c1 t1 : Int) (hlt : c1 - t0 < delay) :
    ((NewRequestsRegistry delay).Register id1 [A, B] c0 t0).2 = none ∧
    ((((NewRequestsRegistry delay).Register id1 [A, B] c0 t0).1.Register
          id2 [B, A] c1 t1).2 = none ↔
        topicsToHash [A, B] ≠ topicsToHash [B, A]) ∧
    (topicsToHash [A, B] ≠ topicsToHash [B, A] → A ≠ B) ∧
    (∃ X Y : TopicType, topicsToHash [X, Y] ≠ topicsToHash [Y, X]) := by
  have hfirst : ((NewRequestsRegistry delay).Register id1 [A, B] c0 t0).2 = none := by
    rw [Register_absent (NewRequestsRegistry delay) id1 [A, B] c0 t0 rfl]
  have hst := Register_ok_state (NewRequestsRegistry delay) id1 [A, B] c0 t0 hfirst
  refine ⟨hfirst, ?_, ?_, ⟨topicA, topicC, by decide⟩⟩
  · obtain ⟨r1, hr1⟩ : ∃ r1, r1 = ((NewRequestsRegistry delay).Register id1 [A, B] c0 t0).1 :=
      ⟨_, rfl⟩
    rw [← hr1]
    have hby : r1.byTopicsHash =
        GoMap.set GoMap.empty (topicsToHash [A, B]) (⟨t0, id1⟩ : requestMeta) := by
      rw [hr1, hst]
      rfl
    have hdl : r1.delay = delay := by
      rw [hr1, hst]
      rfl
    by_cases hh : topicsToHash [A, B] = topicsToHash [B, A]
    · have hentry : r1.byTopicsHash (topicsToHash [B, A]) = some ⟨t0, id1⟩ := by
        rw [hby, ← hh]
        exact GoMap.set_same _ _ _
      rw [Register_blocked r1 id2 [B, A] c1 t1 ⟨t0, id1⟩ hentry (by rw [hdl]; exact hlt)]
      simp [hh]
    · have hne : topicsToHash [B, A] ≠ topicsToHash [A, B] := fun h => hh h.symm
      have hentry : r1.byTopicsHash (topicsToHash [B, A]) = none := by
        rw [hby, GoMap.set_other _ _ _ _ hne]
        rfl
      rw [Register_absent r1 id2 [B, A] c1 t1 hentry]
      simp [hh]
  · intro hne hAB
    exact hne (by rw [hAB])

/-- Witness of C8 amended: the topics `00 00 00 00` and `00 00 00 01`. -/
theorem Register_swapped_topics_witness :
    ((1 : Int) - 0 < Second) ∧
    topicsToHash [topicA, topicC] ≠ topicsToHash [topicC, topicA] ∧
    (((NewRequestsRegistry Second).Register (hashOf 1) [topicA, topicC] 0 0).1.Register
        (hashOf 2) [topicC, topicA] 1 1).2 = none :=
  ⟨by decide, by decide,
   (Register_swapped_topics topicA topicC (hashOf 1) (hashOf 2) Second 0 0 1 1
      (by decide)).2.1.mpr (by decide)⟩

/-- C9, the code at the failing input: the registry built by `NewRequestsRegistry(0)` has
delay `0`, not `defaultRequestsDelay`; on it a registration succeeds and a second one with
the same topics one nanosecond later (less than 3 seconds) succeeds too, whereas the
comment on `defaultRequestsDelay` says that the default "will be used in RequestsRegistry
if no other was provided". -/
theorem NewRequestsRegistry_zero_no_cooldown :
    (NewRequestsRegistry 0).delay = 0 ∧
    (NewRequestsRegistry 0).delay ≠ defaultRequestsDelay ∧
    ((NewRequestsRegistry 0).Register (hashOf 1) [topicA] 0 0).2 = none ∧
    (1 : Int) - 0 < defaultRequestsDelay ∧
    (((NewRequestsRegistry 0).Register (hashOf 1) [topicA] 0 0).1.Register
        (hashOf 2) [topicA] 1 1).2 = none := by
  refine ⟨rfl, by decide, by decide, by decide, by decide⟩

/-! ## The ownership invariant -/

theorem Owned_empty (delay : Int) : (NewRequestsRegistry delay).Owned := by
  intro f entry h
  simp [NewRequestsRegistry, GoMap.empty] at h

theorem Owned_Register (r : RequestsRegistry) (uid : Hash) (topics : List TopicType)
    (sinceNow stampNow : Int) (hinv : r.Owned) (hfresh : r.uidToTopics uid = none) :
    (r.Register uid topics sinceNow stampNow).1.Owned := by
  rcases Register_cases r uid topics sinceNow stampNow with ⟨_, h⟩ | ⟨_, h⟩
  · rw [h]
    exact hinv
  · rw [h]
    intro f entry hf
    by_cases hfk : f = topicsToHash topics
    · subst hfk
      have hentry : entry = ⟨stampNow, uid⟩ := by
        simpa [GoMap.set] using hf.symm
      subst hentry
      simp [GoMap.set]
    · have hold : r.byTopicsHash f = some entry := by
        simpa [GoMap.set, hfk] using hf
      have hown := hinv f entry hold
      have hne : entry.lastUID ≠ uid := by
        intro heq
        rw [heq, hfresh] at hown
        cases hown
      simpa [GoMap.set, hne] using hown

theorem Owned_Unregister (r : RequestsRegistry) (uid : Hash) (hinv : r.Owned) :
    (r.Unregister uid).Owned := by
  unfold RequestsRegistry.Unregister
  cases hu : r.uidToTopics uid with
  | none => exact hinv
  | some th =>
    simp only
    split
    · rename_i hlast
      intro f entry hf
      by_cases hfk : f = th
      · subst hfk
        simp [GoMap.delete] at hf
      · have hold : r.byTopicsHash f = some entry := by
          simpa [GoMap.delete, hfk] using hf
        have hown := hinv f entry hold
        have hne : entry.lastUID ≠ uid := by
          intro heq
          rw [heq, hu] at hown
          exact hfk (Option.some.inj hown).symm
        simpa [GoMap.delete, hne] using hown
    · rename_i hlast
      intro f entry hf
      have hold : r.byTopicsHash f = some entry := hf
      have hown := hinv f entry hold
      have hne : entry.lastUID ≠ uid := by
        intro heq
        by_cases hfk : f = th
        · subst hfk
          rw [hold] at hlast
          exact hlast heq
        · rw [heq, hu] at hown
          exact hfk (Option.some.inj hown).symm
      simpa [GoMap.delete, hne] using hown

theorem Owned_run (calls : List Call) :
    ∀ r : RequestsRegistry, r.Owned → r.freshIds calls = true → (r.run calls).Owned := by
  induction calls with
  | nil =>
    intro r hinv _
    exact hinv
  | cons c cs ih =>
    intro r hinv hfresh
    cases c with
    | register uid topics sinceNow stampNow =>
      simp only [RequestsRegistry.freshIds, Bool.and_eq_true, Option.isNone_iff_eq_none]
        at hfresh
      exact ih _ (Owned_Register r uid topics sinceNow stampNow hinv hfresh.1) hfresh.2
    | unregister uid =>
      simp only [RequestsRegistry.freshIds] at hfresh
      exact ih _ (Owned_Unregister r uid hinv) hfresh

/-- Without fresh ids the ownership can break: registering the same id twice with topics
of different fingerprints leaves an entry whose `lastUID` maps elsewhere. -/
theorem Owned_needs_fresh_ids :
    (NewRequestsRegistry 0).freshIds
        [.register (hashOf 1) [topicA] 0 0, .register (hashOf 1) [topicC] 0 0] = false ∧
    ¬ ((NewRequestsRegistry 0).run
        [.register (hashOf 1) [topicA] 0 0, .register (hashOf 1) [topicC] 0 0]).Owned := by
  refine ⟨by decide, ?_⟩
  intro h
  have h1 := h (topicsToHash [topicA]) ⟨0, hashOf 1⟩ (by decide)
  revert h1
  decide

/-- C10: in every state reached from an empty registry by `Register` and `Unregister`
calls in which every `Register` uses a request id that is not in `uidToTopics` at the time
of the call, every entry of `byTopicsHash`, stored under fingerprint `f`, has a `lastUID`
that `uidToTopics` maps to `f`. -/
theorem reachable_entries_are_owned (delay : Int) (calls : List Call)
    (hfresh : (NewRequestsRegistry delay).freshIds calls = true) :
    ∀ f entry, ((NewRequestsRegistry delay).run calls).byTopicsHash f = some entry →
      ((NewRequestsRegistry delay).run calls).uidToTopics entry.lastUID = some f :=
  Owned_run calls (NewRequestsRegistry delay) (Owned_empty delay) hfresh

/-- Witness of C10: two owners of the same topics in turn, the first unregistered, then a
rejected registration. -/
theorem reachable_entries_are_owned_witness :
    (NewRequestsRegistry defaultRequestsDelay).freshIds
        [.register (hashOf 1) [topicA] 0 0,
         .register (hashOf 2) [topicA] 3000000000 3000000000,
         .unregister (hashOf 1),
         .register (hashOf 3) [topicA] 3000000001 3000000001] = true ∧
    ((NewRequestsRegistry defaultRequestsDelay).run
        [.register (hashOf 1) [topicA] 0 0,
         .register (hashOf 2) [topicA] 3000000000 3000000000,
         .unregister (hashOf 1),
         .register (hashOf 3) [topicA] 3000000001 3000000001]).uidToTopics
        (hashOf 2) = some (topicsToHash [topicA]) :=
  ⟨by decide,
   reachable_entries_are_owned defaultRequestsDelay
      [.register (hashOf 1) [topicA] 0 0,
       .register (hashOf 2) [topicA] 3000000000 3000000000,
       .unregister (hashOf 1),
       .register (hashOf 3) [topicA] 3000000001 3000000001] (by decide)
      (topicsToHash [topicA]) ⟨3000000000, hashOf 2⟩ (by decide)⟩

end Shhext

namespace Node

/-! ## Helper lemmas on the poller -/

theorem pollSyncStart_skip (pre rest : List Select) (h : pre.all notStarted = true) :
    pollSyncStart (pre ++ rest) = pollSyncStart rest := by
  induction pre with
  | nil => rfl
  | cons e es ih =>
    simp only [List.all_cons, Bool.and_eq_true] at h
    cases e with
    | done => simp [notStarted] at h
    | after d =>
      have hd : d.Synchronising = false := by simpa [notStarted] using h.1
      simp [pollSyncStart, hd, ih h.2]

theorem pollSyncCompleted_skip (pre rest : List Select) (h : pre.all behind = true) :
    pollSyncCompleted (pre ++ rest) = pollSyncCompleted rest := by
  induction pre with
  | nil => rfl
  | cons e es ih =>
    simp only [List.all_cons, Bool.and_eq_true] at h
    cases e with
    | done => simp [behind] at h
    | after d =>
      have hd : d.Progress.CurrentBlock < d.Progress.HighestBlock := by
        simpa [behind] using h.1
      simp [pollSyncCompleted, hd, ih h.2]

/-- When `pollSyncStart` returns `nil`, the outcomes consumed are ticks without
synchronisation followed by one tick that reports it. -/
theorem pollSyncStart_nil (outcomes rest : List Select)
    (h : pollSyncStart outcomes = some (none, rest)) :
    ∃ pre d, outcomes = pre ++ .after d :: rest ∧ d.Synchronising = true ∧
      pre.all notStarted = true := by
  induction outcomes with
  | nil => simp [pollSyncStart] at h
  | cons e es ih =>
    cases e with
    | done => simp [pollSyncStart] at h
    | after d =>
      cases hd : d.Synchronising with
      | true =>
        simp only [pollSyncStart, hd, if_true, Option.some.injEq, Prod.mk.injEq, true_and] at h
        exact ⟨[], d, by simp [h], hd, rfl⟩
      | false =>
        simp only [pollSyncStart, hd] at h
        obtain ⟨pre, d2, heq, hs, hall⟩ := ih (by simpa using h)
        exact ⟨.after d :: pre, d2, by simp [heq], hs, by simp [notStarted, hd, hall]⟩

/-- The error `ErrNodeSyncFailedToStart` is the only one `pollSyncStart` returns. -/
theorem pollSyncStart_error (outcomes rest : List Select) (err : SyncError)
    (h : pollSyncStart outcomes = some (some err, rest)) :
    err = .ErrNodeSyncFailedToStart := by
  induction outcomes with
  | nil => simp [pollSyncStart] at h
  | cons e es ih =>
    cases e with
    | done =>
      simp only [pollSyncStart, Option.some.injEq, Prod.mk.injEq] at h
      exact h.1.symm
    | after d =>
      cases hd : d.Synchronising with
      | true => simp [pollSyncStart, hd] at h
      | false =>
        simp only [pollSyncStart, hd] at h
        exact ih (by simpa using h)

/-! ## Theorems on the poller -/

/-- C6, the code at the failing input: after a tick that reports synchronising, a tick
whose progress has `CurrentBlock = 0` and `HighestBlock = 0` makes `Poll` return `nil`
(whether or not the downloader still reports synchronising), although `HighestBlock > 0`
does not hold; before that tick `Poll` had not returned.  The waiting loop of
`EnsureSynchronization` does not stop on the same reading, and stops on `100 / 100`. -/
theorem Poll_zero_progress_succeeds :
    Poll [.after ⟨true, ⟨0, 0⟩⟩] = none ∧
    Poll [.after ⟨true, ⟨0, 0⟩⟩, .after ⟨true, ⟨0, 0⟩⟩] = some none ∧
    Poll [.after ⟨true, ⟨0, 0⟩⟩, .after ⟨false, ⟨0, 0⟩⟩] = some none ∧
    ¬ ((⟨0, 0⟩ : SyncProgress).CurrentBlock ≥ (⟨0, 0⟩ : SyncProgress).HighestBlock ∧
        (⟨0, 0⟩ : SyncProgress).HighestBlock > 0) ∧
    E2e.EnsureSynchronization.synced ⟨false, ⟨0, 0⟩⟩ = false ∧
    E2e.EnsureSynchronization.synced ⟨false, ⟨100, 100⟩⟩ = true := by
  refine ⟨by decide, by decide, by decide, by decide, by decide, by decide⟩

/-- C7: if the cancellation fires before any sample reported synchronising, `Poll` returns
`ErrNodeSyncFailedToStart`; if a sample reported synchronising and the cancellation fires
after progress samples that all had `CurrentBlock < HighestBlock`, `Poll` returns
`ErrNodeSyncTakesTooLong`; and `Poll` returns `ErrNodeSyncTakesTooLong` only after a sample
that reported synchronising. -/
theorem Poll_cancellation_errors (pre mid post outcomes : List Select) (d : Downloader) :
    (pre.all notStarted = true →
      Poll (pre ++ .done :: post) = some (some .ErrNodeSyncFailedToStart)) ∧
    (pre.all notStarted = true → d.Synchronising = true → mid.all behind = true →
      Poll (pre ++ .after d :: (mid ++ .done :: post)) =
        some (some .ErrNodeSyncTakesTooLong)) ∧
    (Poll outcomes = some (some .ErrNodeSyncTakesTooLong) →
      ∃ before s rest, outcomes = before ++ .after s :: rest ∧ s.Synchronising = true ∧
        before.all notStarted = true) := by
  refine ⟨?_, ?_, ?_⟩
  · intro hpre
    unfold Poll
    rw [pollSyncStart_skip _ _ hpre]
    simp [pollSyncStart]
  · intro hpre hs hmid
    unfold Poll
    rw [pollSyncStart_skip _ _ hpre]
    simp only [pollSyncStart, hs, if_true]
    rw [pollSyncCompleted_skip _ _ hmid]
    simp [pollSyncCompleted]
  · intro hres
    unfold Poll at hres
    cases hq : pollSyncStart outcomes with
    | none =>
      rw [hq] at hres
      simp at hres
    | some res =>
      obtain ⟨e, rest⟩ := res
      cases e with
      | some err =>
        have herr := pollSyncStart_error outcomes rest err hq
        rw [hq] at hres
        simp only [Option.some.injEq] at hres
        rw [herr] at hres
        cases hres
      | none =>
        obtain ⟨p, s, hpre, hs, hall⟩ := pollSyncStart_nil outcomes rest hq
        exact ⟨p, s, rest, hpre, hs, hall⟩

/-- Witness of C7: never synchronising and cancelled after three ticks; synchronising at
the third tick, stuck at `5 / 100`, then cancelled. -/
theorem Poll_cancellation_errors_witness :
    Poll ([.after ⟨false, ⟨0, 0⟩⟩, .after ⟨false, ⟨0, 0⟩⟩, .after ⟨false, ⟨0, 0⟩⟩] ++
        .done :: []) = some (some .ErrNodeSyncFailedToStart) ∧
    Poll ([.after ⟨false, ⟨0, 0⟩⟩, .after ⟨false, ⟨0, 0⟩⟩] ++
        .after ⟨true, ⟨0, 0⟩⟩ :: ([.after ⟨true, ⟨5, 100⟩⟩, .after ⟨true, ⟨5, 100⟩⟩] ++
          .done :: [])) = some (some .ErrNodeSyncTakesTooLong) ∧
    (∃ before s rest,
      [Select.after ⟨true, ⟨0, 0⟩⟩, .after ⟨true, ⟨5, 100⟩⟩, .done] =
          before ++ .after s :: rest ∧
        s.Synchronising = true ∧ before.all notStarted = true) :=
  ⟨(Poll_cancellation_errors
      [.after ⟨false, ⟨0, 0⟩⟩, .after ⟨false, ⟨0, 0⟩⟩, .after ⟨false, ⟨0, 0⟩⟩] [] [] []
      ⟨true, ⟨0, 0⟩⟩).1 (by decide),
   (Poll_cancellation_errors
      [.after ⟨false, ⟨0, 0⟩⟩, .after ⟨false, ⟨0, 0⟩⟩]
      [.after ⟨true, ⟨5, 100⟩⟩, .after ⟨true, ⟨5, 100⟩⟩] [] []
      ⟨true, ⟨0, 0⟩⟩).2.1 (by decide) (by decide) (by decide),
   (Poll_cancellation_errors [] [] []
      [.after ⟨true, ⟨0, 0⟩⟩, .after ⟨true, ⟨5, 100⟩⟩, .done]
      ⟨true, ⟨0, 0⟩⟩).2.2 (by decide)⟩

end Node
